import Mathlib

/-
Verification of the mrsoftware/errors Go library: a shallow embedding of the
field model (field.go), the contextual error type (error.go), the MultiError
aggregator (multi.go) and the supervised wait group (waitGroup.go), together
with theorems settling the specification claims.

Modelling conventions:
  - Go float64 and float32 values are represented by their IEEE-754 bit
    patterns (a Nat); math.Float64bits is the identity in this view.
  - Go interface values stored in the generic slot are a small sum type
    GoValue; the nil interface is GoValue.nilv.
  - Go error values are the inductive GoErr; pointer identity of distinct
    allocations is modelled structurally, with an id tag on leaf errors.
  - Machine integers (int64) are Int with explicit two-complement casts.
-/

namespace GoErrors

/-- FieldType from field.go, the iota discriminator enumeration, in source
order. -/
inductive FieldType where
  | Unknown
  | Reflect
  | String
  | Int64
  | Float64
  | Binary
  | Bool
  | ByteString
  | Time
  | TimeFull
  | Duration
  | Error
  | Context
deriving DecidableEq, Repr

/-- A runtime value held in a Go interface slot: the dynamic types that the
field model stores and dispatches on. Floating point values are represented
by their IEEE-754 bit patterns. timeVal is a time.Time (nanoseconds from the
Unix epoch plus location name), locv a time.Location, errv and ctxv opaque
error and context.Context payloads, reflected any other value. The nil
interface is nilv. -/
inductive GoValue where
  | nilv
  | str (s : String)
  | i64 (n : Int)
  | f32 (bits : Nat)
  | f64 (bits : Nat)
  | boolv (b : Bool)
  | bytes (bs : List Nat)
  | dur (n : Int)
  | timeVal (unixNano : Int) (loc : String)
  | locv (name : String)
  | errv (id : Nat)
  | ctxv (id : Nat)
  | reflected (id : Nat)
deriving DecidableEq, Repr

/-- The Field struct from field.go. The Go member named Type is a reserved
Lean keyword and is embedded as Typ; the other members keep their names. -/
structure Field where
  Key : String
  Typ : FieldType
  Integer : Int
  Str : String
  Interface : GoValue
deriving DecidableEq, Repr

/-- Go conversion uint32(x) applied to an int64 value: the low 32 bits. -/
def uint32OfInt64 (x : Int) : Nat := (x % ((2 : Int) ^ 32)).toNat

/-- Go conversion int64(b) applied to a uint64 bit pattern b. -/
def int64OfBits (b : Nat) : Int :=
  if b < 2 ^ 63 then (b : Int) else (b : Int) - 2 ^ 64

/-- Minimum value of int64. -/
def int64Min : Int := -(2 ^ 63)

/-- Maximum value of int64. -/
def int64Max : Int := 2 ^ 63 - 1

/-- Type assertion Interface.(time.Location) used by the Time branch of
Field.Value; constructed fields always store a locv there. -/
def locName : GoValue → String
  | .locv n => n
  | _ => ""

/-- Field.Value from field.go: dispatch on the kind. The Float64 branch
mirrors the source exactly: math.Float32frombits(uint32(f.Integer)), that
is, a float32 built from the low 32 bits of the integer slot. The default
branch (Unknown, Reflect, Context) returns the Interface slot as is. -/
def Field.Value (f : Field) : GoValue :=
  match f.Typ with
  | .String => .str f.Str
  | .Int64 => .i64 f.Integer
  | .Float64 => .f32 (uint32OfInt64 f.Integer)
  | .Binary => f.Interface
  | .ByteString => f.Interface
  | .Error => f.Interface
  | .TimeFull => f.Interface
  | .Time => .timeVal f.Integer (locName f.Interface)
  | .Duration => .dur f.Integer
  | .Bool => .boolv (f.Integer == 1)
  | _ => f.Interface

/-- The Go constructor String from field.go (name taken by the Lean string
type). -/
def FString (key : String) (val : String) : Field :=
  ⟨key, .String, 0, val, .nilv⟩

/-- The Go constructor Int64 from field.go. -/
def FInt64 (key : String) (value : Int) : Field :=
  ⟨key, .Int64, value, "", .nilv⟩

/-- The Go constructor Int from field.go: delegates to Int64. -/
def FInt (key : String) (value : Int) : Field :=
  FInt64 key value

/-- Float64 from field.go: stores int64(math.Float64bits(val)) in the
integer slot; val is the IEEE-754 bit pattern of the float64 argument. -/
def Float64 (key : String) (val : Nat) : Field :=
  ⟨key, .Float64, int64OfBits val, "", .nilv⟩

/-- Binary from field.go. -/
def Binary (key : String) (val : List Nat) : Field :=
  ⟨key, .Binary, 0, "", .bytes val⟩

/-- The Go constructor Bool from field.go. -/
def FBool (key : String) (val : Bool) : Field :=
  ⟨key, .Bool, if val then 1 else 0, "", .nilv⟩

/-- ByteString from field.go. -/
def ByteString (key : String) (val : List Nat) : Field :=
  ⟨key, .ByteString, 0, "", .bytes val⟩

/-- Reflect from field.go: an arbitrary value in the Interface slot under
the Reflect kind. -/
def Reflect (key : String) (val : GoValue) : Field :=
  ⟨key, .Reflect, 0, "", val⟩

/-- nilField from field.go: Reflect with nil payload, the sentinel for
absent fields. -/
def nilField (key : String) : Field :=
  Reflect key .nilv

/-- Duration from field.go. -/
def Duration (key : String) (val : Int) : Field :=
  ⟨key, .Duration, val, "", .nilv⟩

/-- Time from field.go: a value outside the int64 nanosecond range is
stored whole under TimeFull, otherwise as UnixNano plus location under
Time. -/
def Time (key : String) (unixNano : Int) (loc : String) : Field :=
  if unixNano < int64Min ∨ int64Max < unixNano then
    ⟨key, .TimeFull, 0, "", .timeVal unixNano loc⟩
  else
    ⟨key, .Time, unixNano, "", .locv loc⟩

/-- NamedError from field.go. -/
def NamedError (key : String) (errid : Nat) : Field :=
  ⟨key, .Error, 0, "", .errv errid⟩

/-- NamedContext from field.go. -/
def NamedContext (key : String) (ctxid : Nat) : Field :=
  ⟨key, .Context, 0, "", .ctxv ctxid⟩

/-- Any from field.go: type switch on the dynamic type of the argument.
A nil input yields the nilField sentinel; recognized types route to their
typed constructor (the int and int64 cases are both i64 here); anything
unrecognized, including float32 and location values, falls back to the
Unknown kind carrying the value. -/
def Any (key : String) (val : GoValue) : Field :=
  match val with
  | .nilv => nilField key
  | .str s => FString key s
  | .i64 n => FInt64 key n
  | .f64 bits => Float64 key bits
  | .bytes bs => Binary key bs
  | .boolv b => FBool key b
  | .timeVal n loc => Time key n loc
  | .dur n => Duration key n
  | .errv i => NamedError key i
  | .ctxv i => NamedContext key i
  | v => ⟨key, .Unknown, 0, "", v⟩

/-- IsNilField from field.go: kind Reflect and nil Interface slot. -/
def IsNilField (field : Field) : Bool :=
  if field.Typ != FieldType.Reflect then false
  else field.Interface == GoValue.nilv

/-- The IEEE-754 bit pattern of the float64 value 3.14. -/
def bits314 : Nat := 0x40091EB851EB851F

/-- Go error values. std is a standard library leaf (errors.New in package
errors of the standard library: has Error() but no Unwrap method; the id
distinguishes distinct allocations). ctx is the package Error struct from
error.go (msg, fields, optional cause). multi is MultiError from multi.go
(member list). wrapped is a foreign wrapper exposing a single-step Unwrap,
such as a fmt.Errorf value built with the w verb; msg holds its full
formatted message. -/
inductive GoErr where
  | std (id : Nat) (msg : String)
  | ctx (msg : String) (fields : List Field) (cause : Option GoErr)
  | multi (errs : List GoErr)
  | wrapped (msg : String) (inner : GoErr)

/-- The literal separator defaultErrorGroupSeparator from multi.go. -/
def defaultErrorGroupSeparator : String := " | "

/-- The write loop of MultiError.Error from multi.go: append each message
to the buffer, followed by the separator whenever the index is not the
last one. -/
def multiWrite (total : Nat) : Nat → List String → String → String
  | _, [], buf => buf
  | i, msg :: rest, buf =>
      multiWrite total (i + 1) rest
        (buf ++ msg ++ if i < total - 1 then defaultErrorGroupSeparator else "")

mutual

/-- The Error() method. std and wrapped return their message; ctx returns
msg alone without a cause and msg ++ ": " ++ cause.Error() with one
(error.go Error); multi returns the empty string when empty and otherwise
the buffer loop over the member messages (multi.go Error). -/
def errorMsg : GoErr → String
  | .std _ m => m
  | .ctx m _ none => m
  | .ctx m _ (some c) => m ++ ": " ++ errorMsg c
  | .wrapped m _ => m
  | .multi errs =>
      if (errorMsgList errs).length = 0 then ""
      else multiWrite (errorMsgList errs).length 0 (errorMsgList errs) ""

/-- Error() of each member in order. -/
def errorMsgList : List GoErr → List String
  | [] => []
  | e :: rest => errorMsg e :: errorMsgList rest

end

/-- The single-step unwrap used by the standard chain walkers: Error.Unwrap
returns the cause (error.go), MultiError.Unwrap returns the first member or
nil when empty (multi.go), a foreign wrapper returns its inner error, and a
standard library leaf has no Unwrap method. -/
def unwrapOne : GoErr → Option GoErr
  | .std _ _ => none
  | .ctx _ _ c => c
  | .multi [] => none
  | .multi (e :: _) => some e
  | .wrapped _ inner => some inner

/-- Whether the dynamic type has an Unwrap() error method. Every error has
Error(), so this is also the causer capability used by Cause in error.go. -/
def hasUnwrapMethod : GoErr → Bool
  | .std _ _ => false
  | _ => true

mutual

/-- Go interface equality on error values: pointer identity, modelled
structurally (distinct allocations carry distinct ids and shared pointers
are shared subterms). -/
def eqb : GoErr → GoErr → Bool
  | .std i m, .std j n => i == j && m == n
  | .ctx m fs none, .ctx n gs none => m == n && fs == gs
  | .ctx m fs (some a), .ctx n gs (some b) => m == n && fs == gs && eqb a b
  | .multi es, .multi ds => eqbList es ds
  | .wrapped m a, .wrapped n b => m == n && eqb a b
  | _, _ => false

/-- Member-wise eqb on lists. -/
def eqbList : List GoErr → List GoErr → Bool
  | [], [] => true
  | a :: as, b :: bs => eqb a b && eqbList as bs
  | _, _ => false

end

mutual

/-- Go errors.Is(err, target) from the standard library: at each step
compare err with target, then call the Is method when the dynamic type has
one (only MultiError does: multi.go Is scans the members calling
errors.Is(target, member), with target in the err position), then follow
the single-step Unwrap, stopping when it is absent. -/
def stdIs (err target : GoErr) : Bool :=
  eqb err target ||
  match err with
  | .std _ _ => false
  | .ctx _ _ none => false
  | .ctx _ _ (some c) => stdIs c target
  | .wrapped _ inner => stdIs inner target
  | .multi errs =>
      stdIsScan errs target ||
      match errs with
      | [] => false
      | e :: _ => stdIs e target
termination_by sizeOf err + sizeOf target
decreasing_by all_goals (simp_wf <;> omega)

/-- The member scan of MultiError.Is from multi.go: for each member in
order, errors.Is(target, member). -/
def stdIsScan : List GoErr → GoErr → Bool
  | [], _ => false
  | e :: rest, target => stdIs target e || stdIsScan rest target
termination_by l target => sizeOf l + sizeOf target
decreasing_by all_goals (simp_wf <;> omega)

end

/-- Go errors.As(err, target) from the standard library, at target type
pointer to the package Error: succeed on the first node of the walk whose
dynamic type is the package Error; no dynamic type here has an As method,
so otherwise follow the single-step Unwrap (first member for MultiError,
nil when empty) and fail when it is absent. -/
def stdAsError : GoErr → Option GoErr
  | .ctx m f c => some (.ctx m f c)
  | .std _ _ => none
  | .wrapped _ inner => stdAsError inner
  | .multi [] => none
  | .multi (e :: _) => stdAsError e

/-- GetError from error.go (the revision at part 000 lines 188 to 200):
type-assert the argument to the package Error and return it on success;
otherwise recurse on errors.Unwrap when that is non-nil; otherwise
synthesize a leaf Error whose message is the Error() of the error reached
at this point and whose cause is that error. -/
def getError : GoErr → GoErr
  | .ctx m f c => .ctx m f c
  | .std i m => .ctx m [] (some (.std i m))
  | .wrapped m inner => getError inner
  | .multi [] => .ctx (errorMsg (.multi [])) [] (some (.multi []))
  | .multi (e :: _) => getError e

/-- The fields member of a package Error node; getError always yields a
ctx node, other cases are unreachable in its uses. -/
def errFields : GoErr → List Field
  | .ctx _ f _ => f
  | _ => []

/-- The cause member of a package Error node. -/
def errCause : GoErr → Option GoErr
  | .ctx _ _ c => c
  | _ => none

/-- The single-step unwrap target is structurally smaller. -/
theorem sizeOf_unwrapOne {e c : GoErr} (h : unwrapOne e = some c) :
    sizeOf c < sizeOf e := by
  cases e with
  | std i m => simp [unwrapOne] at h
  | ctx m fs cause =>
    cases cause with
    | none => simp [unwrapOne] at h
    | some a =>
      simp [unwrapOne] at h
      subst h
      simp
      omega
  | multi errs =>
    cases errs with
    | nil => simp [unwrapOne] at h
    | cons a rest =>
      simp [unwrapOne] at h
      subst h
      simp
      omega
  | wrapped m inner =>
    simp [unwrapOne] at h
    subst h
    simp

/-- Cause from error.go: loop while the current error exposes the causer
capability (an Unwrap method next to Error): step to the unwrap target
unless it is nil, in which case stop and return the current error; an
error without the capability is returned as is; nil input returns nil. -/
def goCause : Option GoErr → Option GoErr
  | none => none
  | some e =>
    if hasUnwrapMethod e then
      match h : unwrapOne e with
      | none => some e
      | some c => goCause (some c)
    else some e
termination_by x => sizeOf x
decreasing_by
  simp_wf
  have := sizeOf_unwrapOne h
  omega

/-- The innermost error of the single-step unwrap chain. -/
def chainLast (e : GoErr) : GoErr :=
  match h : unwrapOne e with
  | none => e
  | some u => chainLast u
termination_by sizeOf e
decreasing_by
  have := sizeOf_unwrapOne h
  omega

/-- The first node of the single-step unwrap chain whose dynamic type is
the package Error, if any. -/
def chainFirstCtx (e : GoErr) : Option GoErr :=
  match e with
  | .ctx m f c => some (.ctx m f c)
  | e' =>
    match h : unwrapOne e' with
    | none => none
    | some u => chainFirstCtx u
termination_by sizeOf e
decreasing_by
  have := sizeOf_unwrapOne h
  omega

/-- FindFieldInChain from field.go, with explicit fuel: the loop takes
GetError of the current error, scans its fields for the key returning the
first match, returns nilField when the cause is nil, and otherwise
continues on the cause. Fuel exhaustion (the none result) models a loop
that has not returned within that many iterations. -/
def findFieldInChain (fuel : Nat) (key : String) (err : GoErr) : Option Field :=
  match fuel with
  | 0 => none
  | n + 1 =>
    match (errFields (getError err)).find? (fun field => field.Key == key) with
    | some field => some field
    | none =>
      match errCause (getError err) with
      | none => some (nilField key)
      | some c => findFieldInChain n key c

/-- GetField from field.go: scan the fields of GetError(err) for the key,
first match wins, nilField when absent. -/
def GetField (err : GoErr) (key : String) : Field :=
  match (errFields (getError err)).find? (fun field => field.Key == key) with
  | some field => field
  | none => nilField key

/-- MultiError.Add from multi.go: nil is ignored, anything else appended.
SafeAdd only wraps the same append in the lock and has the same effect on
the member list. -/
def multiAdd (errs : List GoErr) (err : Option GoErr) : List GoErr :=
  match err with
  | none => errs
  | some e => errs ++ [e]

/-- NewMultiError from multi.go: Add each argument in order starting from
the empty aggregator. -/
def newMultiError (args : List (Option GoErr)) : List GoErr :=
  args.foldl multiAdd []

/-- A sequence of Add or SafeAdd calls on an existing member list. -/
def multiAddAll (errs : List GoErr) (ops : List (Option GoErr)) : List GoErr :=
  ops.foldl multiAdd errs

/-- Events of a supervised wait group run, in execution order: Add(delta)
and Done(err) from waitGroup.go. -/
inductive WGEvent where
  | add (delta : Int)
  | done (err : Option GoErr)

/-- Wait group state: the barrier counter of the underlying sync.WaitGroup
and the owned MultiError member list. -/
structure WGState where
  counter : Int
  errs : List GoErr

/-- One step of a wait group run. Add moves the barrier counter and the
underlying sync.WaitGroup panics with the message below whenever the
counter would become negative (its documented misuse behavior, also
asserted by the tests of this repository). Done from waitGroup.go calls
the barrier Done first (an Add of minus one) and then, for a non-nil
error, appends it to the owned MultiError; the optional cancellation on
error does not touch this state. -/
def wgStep : WGState → WGEvent → Except String WGState
  | s, .add d =>
    if s.counter + d < 0 then .error "sync: negative WaitGroup counter"
    else .ok ⟨s.counter + d, s.errs⟩
  | s, .done none =>
    if s.counter - 1 < 0 then .error "sync: negative WaitGroup counter"
    else .ok ⟨s.counter - 1, s.errs⟩
  | s, .done (some e) =>
    if s.counter - 1 < 0 then .error "sync: negative WaitGroup counter"
    else .ok ⟨s.counter - 1, multiAdd s.errs (some e)⟩

/-- Run a whole event sequence from the fresh wait group state; an error
result is a panic of the underlying barrier. -/
def wgRun (events : List WGEvent) : Except String WGState :=
  events.foldlM wgStep ⟨0, []⟩

/-- Wait from waitGroup.go, read after the barrier reached zero: nil when
the owned MultiError is empty, otherwise the MultiError itself. -/
def wgWait (s : WGState) : Option GoErr :=
  if s.errs.length = 0 then none else some (.multi s.errs)

/-- Claim-side rendering for the MultiError message: the member messages
in order joined by the literal separator, with no trailing separator. -/
def sepJoined : List String → String
  | [] => ""
  | [m] => m
  | m :: m2 :: rest => m ++ " | " ++ sepJoined (m2 :: rest)

end GoErrors

namespace GoErrors

/-- The member scan of MultiError.Is is an existential over the members,
matching each member against the chain of the target. -/
theorem stdIsScan_eq_any (l : List GoErr) (t : GoErr) :
    stdIsScan l t = true ↔ ∃ e ∈ l, stdIs t e = true := by
  induction l with
  | nil => simp [stdIsScan]
  | cons a rest ih =>
    rw [stdIsScan]
    simp [Bool.or_eq_true, ih]

/-- chainLast on a standard library leaf. -/
theorem chainLast_std (i : Nat) (m : String) : chainLast (.std i m) = .std i m := by
  rw [chainLast]
  rfl

/-- chainLast on a package Error without cause. -/
theorem chainLast_ctx_none (m : String) (f : List Field) :
    chainLast (.ctx m f none) = .ctx m f none := by
  rw [chainLast]
  rfl

/-- chainLast on a package Error with cause. -/
theorem chainLast_ctx_some (m : String) (f : List Field) (c : GoErr) :
    chainLast (.ctx m f (some c)) = chainLast c := by
  rw [chainLast]
  rfl

/-- chainLast on an empty MultiError. -/
theorem chainLast_multi_nil : chainLast (.multi []) = .multi [] := by
  rw [chainLast]
  rfl

/-- chainLast on a MultiError with a first member. -/
theorem chainLast_multi_cons (e : GoErr) (rest : List GoErr) :
    chainLast (.multi (e :: rest)) = chainLast e := by
  rw [chainLast]
  rfl

/-- chainLast on a foreign wrapper. -/
theorem chainLast_wrapped (m : String) (inner : GoErr) :
    chainLast (.wrapped m inner) = chainLast inner := by
  rw [chainLast]
  rfl

/-- chainFirstCtx returns a package Error node at once. -/
theorem chainFirstCtx_ctx (m : String) (f : List Field) (c : Option GoErr) :
    chainFirstCtx (.ctx m f c) = some (.ctx m f c) := by
  rw [chainFirstCtx]

/-- chainFirstCtx on a standard library leaf. -/
theorem chainFirstCtx_std (i : Nat) (m : String) : chainFirstCtx (.std i m) = none := by
  rw [chainFirstCtx]
  · rfl
  · nofun

/-- chainFirstCtx on an empty MultiError. -/
theorem chainFirstCtx_multi_nil : chainFirstCtx (.multi []) = none := by
  rw [chainFirstCtx]
  · rfl
  · nofun

/-- chainFirstCtx on a MultiError with a first member. -/
theorem chainFirstCtx_multi_cons (e : GoErr) (rest : List GoErr) :
    chainFirstCtx (.multi (e :: rest)) = chainFirstCtx e := by
  rw [chainFirstCtx]
  · rfl
  · nofun

/-- chainFirstCtx on a foreign wrapper. -/
theorem chainFirstCtx_wrapped (m : String) (inner : GoErr) :
    chainFirstCtx (.wrapped m inner) = chainFirstCtx inner := by
  rw [chainFirstCtx]
  · rfl
  · nofun

/-- C1: the claim states that Value() of Float64(k, v) returns exactly v by
bit-exact reinterpretation of the 64-bit integer slot. The code instead
returns math.Float32frombits(uint32(f.Integer)): at v = 3.14 (bit pattern
0x40091EB851EB851F) Value() is the float32 with bit pattern 0x51EB851F
(about 1.26e11), and for no key and no float64 value does Value() return
the float64 v. This theorem records the divergence of the code from the
claim, which the specification states as the clear intent. -/
theorem float64_field_value_is_float32 :
    (Field.Value (Float64 "pi" bits314) = GoValue.f32 0x51EB851F) ∧
    (∀ (k : String) (v : Nat), Field.Value (Float64 k v) ≠ GoValue.f64 v) := by
  constructor
  · decide
  · intro k v
    simp [Field.Value, Float64]

/-- C2 counterexample: the claim says Is(m, target) is true iff at least
one member of m matches target under the standard identity-match
semantics. Take the member x (a standard leaf) and the target Wrap(x, w),
a package Error whose cause is x: no member of [x] matches the target
(errors.Is(x, target) is false, and the target equals no member), yet
Is returns true, because MultiError.Is runs errors.Is(target, member),
walking the chain of the target rather than that of the member. -/
theorem multiError_is_counterexample :
    (stdIs (.multi [.std 0 "x"]) (.ctx "w" [] (some (.std 0 "x"))) = true) ∧
    (([GoErr.std 0 "x"].any fun e => stdIs e (.ctx "w" [] (some (.std 0 "x")))) = false) := by
  constructor
  · simp [stdIs, stdIsScan, eqb, eqbList]
  · simp [stdIs, stdIsScan, eqb, eqbList]

/-- C2 amended: Is on a MultiError is true iff the aggregate itself is the
target, or the chain of the target matches some member (the member scan of
MultiError.Is runs errors.Is(target, member), so matching is existential
over members but walks the chain of the target), or the first member
matches the target through the standard continuation of errors.Is along
the single-step Unwrap of the aggregate. Type-match (As) consults only
that single-step Unwrap, hence binds only through the chain of the first
member, never through a later member. -/
theorem multiError_is_as_spec (errs : List GoErr) (target : GoErr) :
    (stdIs (.multi errs) target = true ↔
      (eqb (.multi errs) target = true ∨
       (∃ e ∈ errs, stdIs target e = true) ∨
       (∃ e, errs.head? = some e ∧ stdIs e target = true))) ∧
    stdAsError (.multi errs) =
      (match errs.head? with
       | some e => stdAsError e
       | none => none) := by
  constructor
  · rw [stdIs.eq_def]
    cases errs with
    | nil => simp [stdIsScan]
    | cons a rest =>
      simp only [Bool.or_eq_true, stdIsScan_eq_any, List.head?_cons, Option.some.injEq]
      constructor
      · rintro (h | h | h)
        · exact Or.inl h
        · exact Or.inr (Or.inl h)
        · exact Or.inr (Or.inr ⟨a, rfl, h⟩)
      · rintro (h | h | ⟨e, rfl, h⟩)
        · exact Or.inl h
        · exact Or.inr (Or.inl h)
        · exact Or.inr (Or.inr h)
  · cases errs with
    | nil =>
      rw [stdAsError]
      rfl
    | cons a rest =>
      rw [stdAsError]
      rfl

/-- C4 counterexample: for a non-contextual error with a non-empty unwrap
chain containing no contextual node, GetError synthesizes from the
innermost error of the chain, not from the argument: on the wrapper
fmt.Errorf around a standard leaf, the synthesized message is the message
of the leaf and the cause is the leaf, while the claim prescribes the
Error() of the argument (the full formatted message) and the argument
itself as cause. -/
theorem getError_synth_counterexample :
    (getError (.wrapped "outer: inner" (.std 0 "inner")) =
      .ctx "inner" [] (some (.std 0 "inner"))) ∧
    (errorMsg (.wrapped "outer: inner" (.std 0 "inner")) = "outer: inner") ∧
    ((GoErr.ctx "inner" [] (some (.std 0 "inner"))) ≠
      (GoErr.ctx "outer: inner" [] (some (.wrapped "outer: inner" (.std 0 "inner"))))) := by
  refine ⟨?_, ?_, ?_⟩
  · rw [getError, getError]
  · rw [errorMsg]
  · intro h
    rw [GoErr.ctx.injEq] at h
    exact absurd h.1 (by decide)

/-- C4 amended: GetError returns the first contextual node found by
recursing through the unwrap chain (the argument itself when contextual);
when no node of the chain is contextual it synthesizes a leaf contextual
error whose message is the Error() of the innermost error of the chain and
whose cause is that innermost error. -/
theorem getError_spec_amended (err : GoErr) :
    getError err =
      (match chainFirstCtx err with
       | some c => c
       | none => .ctx (errorMsg (chainLast err)) [] (some (chainLast err))) := by
  induction err using getError.induct with
  | case1 m f c => rw [getError, chainFirstCtx_ctx]
  | case2 i m => rw [getError, chainFirstCtx_std, chainLast_std, errorMsg]
  | case3 m inner ih => rw [getError, chainFirstCtx_wrapped, chainLast_wrapped, ih]
  | case4 => rw [getError, chainFirstCtx_multi_nil, chainLast_multi_nil]
  | case5 e rest ih => rw [getError, chainFirstCtx_multi_cons, chainLast_multi_cons, ih]

/-- The Cause walk never turns a non-nil error into nil: it stops on the
current error instead. -/
theorem goCause_isSome (e : GoErr) : (goCause (some e)).isSome = true := by
  rw [goCause]
  split
  · split
    · simp
    · rename_i c h2
      exact goCause_isSome c
  · simp
termination_by sizeOf e
decreasing_by
  rename_i heq
  have := sizeOf_unwrapOne heq
  omega

/-- C5: Cause walks the chain while the current error exposes both Unwrap
and Error: a standard leaf lacks the capability and is returned as is; a
capable error with a nil unwrap target stops the walk returning the
current error rather than nil; a capable error with a target steps to it;
nil input gives nil; and the result of a non-nil input is never nil. -/
theorem cause_walk_spec (e : GoErr) :
    (goCause none = none) ∧
    (hasUnwrapMethod e = false → goCause (some e) = some e) ∧
    (hasUnwrapMethod e = true → unwrapOne e = none → goCause (some e) = some e) ∧
    (∀ c, hasUnwrapMethod e = true → unwrapOne e = some c →
      goCause (some e) = goCause (some c)) ∧
    ((goCause (some e)).isSome = true) := by
  refine ⟨?_, ?_, ?_, ?_, goCause_isSome e⟩
  · rw [goCause]
  · intro h
    rw [goCause, if_neg (by simp [h])]
  · intro hm hu
    rw [goCause, if_pos hm]
    split
    · rfl
    · rename_i c heq
      rw [hu] at heq
      cases heq
  · intro c hm hu
    rw [goCause, if_pos hm]
    split
    · rename_i heq
      rw [hu] at heq
      cases heq
    · rename_i u heq
      rw [hu] at heq
      injection heq with h3
      rw [h3]

/-- Witness for C5: a standard leaf is returned as is, and a contextual
wrapper steps to its cause. -/
theorem cause_walk_spec_witness :
    (goCause (some (GoErr.std 0 "boom")) = some (GoErr.std 0 "boom")) ∧
    (goCause (some (GoErr.ctx "w" [] (some (GoErr.std 0 "x")))) =
      goCause (some (GoErr.std 0 "x"))) :=
  ⟨(cause_walk_spec (GoErr.std 0 "boom")).2.1 rfl,
   (cause_walk_spec (GoErr.ctx "w" [] (some (GoErr.std 0 "x")))).2.2.2.1
     (GoErr.std 0 "x") rfl rfl⟩

/-- C6: the claim says FindFieldInChain returns the nil-field sentinel
when the key is absent anywhere in the chain. On a chain that ends in a
foreign (non contextual) error this is not so: GetError synthesizes a
wrapper whose cause is that same foreign error, the loop sees a non-nil
cause, steps to the foreign error again and never returns. With a
standard leaf and an absent key the loop yields no result within any
number of iterations. -/
theorem findFieldInChain_foreign_leaf_diverges (fuel : Nat) :
    findFieldInChain fuel "k" (.std 0 "boom") = none := by
  induction fuel with
  | zero => rfl
  | succ n ih =>
    rw [findFieldInChain, getError]
    simpa [errFields, errCause] using ih

/-- The buffer loop of MultiError.Error computes the separator join with
no trailing separator, whenever the total passed in is the index plus the
number of remaining messages. -/
theorem multiWrite_sepJoined (msgs : List String) :
    ∀ (total i : Nat) (buf : String), total = i + msgs.length →
      multiWrite total i msgs buf = buf ++ sepJoined msgs := by
  induction msgs with
  | nil =>
    intro total i buf h
    rw [multiWrite, sepJoined]
    rw [String.append_empty]
  | cons m rest ih =>
    intro total i buf h
    cases rest with
    | nil =>
      rw [multiWrite]
      have hc : ¬ (i < total - 1) := by
        subst h
        simp
      rw [if_neg hc]
      rw [multiWrite, sepJoined]
      rw [String.append_empty]
    | cons m2 r2 =>
      rw [multiWrite]
      have hc : i < total - 1 := by
        subst h
        simp only [List.length_cons]
        omega
      rw [if_pos hc]
      rw [ih total (i + 1) _ (by subst h; simp only [List.length_cons]; omega)]
      rw [sepJoined]
      simp only [defaultErrorGroupSeparator, String.append_assoc]

/-- errorMsgList is the map of the Error() rendering over the members. -/
theorem errorMsgList_eq_map (l : List GoErr) : errorMsgList l = l.map errorMsg := by
  induction l with
  | nil => rw [errorMsgList, List.map_nil]
  | cons e rest ih => rw [errorMsgList, ih, List.map_cons]

/-- C7: the Error() string of a MultiError is empty for an empty member
list, and otherwise is the member Error() strings in insertion order
joined by the literal separator with no trailing separator. -/
theorem multiError_error_join_spec (errs : List GoErr) :
    (errorMsg (.multi errs) = sepJoined (errs.map errorMsg)) ∧
    (errorMsg (.multi ([] : List GoErr)) = "") := by
  have hmain : ∀ l : List GoErr, errorMsg (.multi l) = sepJoined (l.map errorMsg) := by
    intro l
    rw [errorMsg, errorMsgList_eq_map]
    cases l with
    | nil => simp [sepJoined]
    | cons e rest =>
      rw [if_neg (by simp)]
      rw [multiWrite_sepJoined (List.map errorMsg (e :: rest)) _ 0 "" (by simp)]
      rw [String.empty_append]
  exact ⟨hmain errs, by rw [hmain []]; rfl⟩

/-- Any sequence of Add or SafeAdd calls appends exactly the non-nil
arguments, in order. -/
theorem multiAddAll_eq (ops : List (Option GoErr)) :
    ∀ errs, multiAddAll errs ops = errs ++ ops.filterMap id := by
  induction ops with
  | nil =>
    intro errs
    rw [multiAddAll, List.foldl_nil, List.filterMap_nil, List.append_nil]
  | cons o rest ih =>
    intro errs
    rw [multiAddAll, List.foldl_cons]
    have hrec : rest.foldl multiAdd (multiAdd errs o) = multiAdd errs o ++ rest.filterMap id :=
      ih (multiAdd errs o)
    rw [hrec]
    cases o with
    | none => rw [multiAdd, List.filterMap_cons_none]; rfl
    | some e =>
      rw [multiAdd, List.filterMap_cons_some]
      rw [List.append_assoc, List.singleton_append]
      rfl

/-- The length of the collapsed option list counts its non-nil entries. -/
theorem filterMap_id_length {α : Type} (l : List (Option α)) :
    (l.filterMap id).length = l.countP (fun o => o.isSome) := by
  induction l with
  | nil => rfl
  | cons o rest ih =>
    cases o with
    | none => simpa [List.countP_cons] using ih
    | some a => simpa [List.countP_cons] using ih

/-- C8: starting from NewMultiError on any argument list and applying any
sequence of Add or SafeAdd calls, the member list is exactly the non-nil
arguments in call order (nil arguments are silently ignored, and since
members are drawn from the collapsed list, no entry is nil), and its
length is the number of non-nil arguments. -/
theorem multiError_nonNil_invariant (seedArgs ops : List (Option GoErr)) :
    (multiAddAll (newMultiError seedArgs) ops = (seedArgs ++ ops).filterMap id) ∧
    ((multiAddAll (newMultiError seedArgs) ops).length =
      (seedArgs ++ ops).countP (fun o => o.isSome)) := by
  have hseed : newMultiError seedArgs = seedArgs.filterMap id := by
    have h := multiAddAll_eq seedArgs []
    rw [List.nil_append] at h
    exact h
  have hmain : multiAddAll (newMultiError seedArgs) ops = (seedArgs ++ ops).filterMap id := by
    rw [hseed, multiAddAll_eq ops, List.filterMap_append]
  exact ⟨hmain, by rw [hmain]; exact filterMap_id_length (seedArgs ++ ops)⟩

/-- Running a list of Done events from a counter at least their number
never panics, decrements the counter once per event and appends exactly
the non-nil errors in event order. -/
theorem wgRun_done_list (dones : List (Option GoErr)) :
    ∀ (c : Int) (errs : List GoErr), (dones.length : Int) ≤ c →
      (dones.map WGEvent.done).foldlM wgStep ⟨c, errs⟩ =
        .ok ⟨c - dones.length, errs ++ dones.filterMap id⟩ := by
  induction dones with
  | nil =>
    intro c errs h
    simp only [List.map_nil, List.foldlM_nil, List.length_nil, List.filterMap_nil,
      List.append_nil, Nat.cast_zero, sub_zero]
    rfl
  | cons d rest ih =>
    intro c errs h
    have hc : ¬ (c - 1 < 0) := by
      rw [List.length_cons] at h
      push_cast at h
      omega
    cases d with
    | none =>
      rw [List.map_cons, List.foldlM_cons, wgStep]
      rw [if_neg hc]
      show (rest.map WGEvent.done).foldlM wgStep ⟨c - 1, errs⟩ = _
      rw [ih (c - 1) errs (by rw [List.length_cons] at h; push_cast at h ⊢; omega)]
      rw [List.filterMap_cons_none]
      congr 2
      rw [List.length_cons]
      push_cast
      ring
      rfl
    | some e =>
      rw [List.map_cons, List.foldlM_cons, wgStep]
      rw [if_neg hc]
      show (rest.map WGEvent.done).foldlM wgStep ⟨c - 1, multiAdd errs (some e)⟩ = _
      rw [ih (c - 1) (multiAdd errs (some e))
        (by rw [List.length_cons] at h; push_cast at h ⊢; omega)]
      rw [List.filterMap_cons_some]
      rw [multiAdd]
      rw [List.append_assoc, List.singleton_append]
      congr 2
      rw [List.length_cons]
      push_cast
      ring
      rfl

/-- C3: a run consisting of Add(N) followed by the N Done calls, in any
execution order of the Done calls (the dones list is that order), never
faults, ends with counter zero and with the owned MultiError holding
exactly the non-nil errors of the run in that order; Wait then returns
nil when every Done carried nil, and the aggregate of exactly those
errors when at least one was non-nil. -/
theorem waitGroup_wait_spec (dones : List (Option GoErr)) :
    (wgRun (WGEvent.add dones.length :: dones.map WGEvent.done) =
      .ok ⟨0, dones.filterMap id⟩) ∧
    ((∀ d ∈ dones, d = none) → wgWait ⟨0, dones.filterMap id⟩ = none) ∧
    (dones.filterMap id ≠ [] →
      wgWait ⟨0, dones.filterMap id⟩ = some (.multi (dones.filterMap id))) := by
  refine ⟨?_, ?_, ?_⟩
  · rw [wgRun, List.foldlM_cons, wgStep]
    rw [if_neg (by dsimp only; omega)]
    show (dones.map WGEvent.done).foldlM wgStep ⟨0 + dones.length, []⟩ = _
    rw [wgRun_done_list dones (0 + dones.length) [] (by omega)]
    rw [List.nil_append]
    congr 2
    ring
  · intro h
    have hnil : dones.filterMap id = [] := by
      rw [List.filterMap_eq_nil]
      intro a ha
      rw [h a ha]
      rfl
    rw [hnil]
    rfl
  · intro h
    rw [wgWait]
    rw [if_neg (by simpa using h)]

/-- Witness for C3: a run with one failed Done yields the aggregate of
that error, and a run whose Done calls all carry nil yields nil. -/
theorem waitGroup_wait_spec_witness :
    (wgRun [WGEvent.add 1, WGEvent.done (some (GoErr.std 0 "e"))] =
      .ok ⟨0, [GoErr.std 0 "e"]⟩) ∧
    (wgWait ⟨0, [GoErr.std 0 "e"]⟩ = some (.multi [GoErr.std 0 "e"])) ∧
    (wgWait ⟨0, ([] : List GoErr)⟩ = none) := by
  refine ⟨?_, ?_, ?_⟩
  · have h := (waitGroup_wait_spec [some (GoErr.std 0 "e")]).1
    simpa using h
  · have h := (waitGroup_wait_spec [some (GoErr.std 0 "e")]).2.2 (by simp)
    simpa using h
  · have h := (waitGroup_wait_spec [none]).2.1 (by simp)
    simpa using h

/-- Splitting a run at an event boundary. -/
theorem wgStep_foldlM_append (xs ys : List WGEvent) (s : WGState) :
    (xs ++ ys).foldlM wgStep s =
      xs.foldlM wgStep s >>= fun s2 => ys.foldlM wgStep s2 := by
  induction xs generalizing s with
  | nil => simp [List.foldlM]
  | cons x rest ih =>
    rw [List.cons_append, List.foldlM_cons, List.foldlM_cons]
    cases wgStep s x with
    | error msg => rfl
    | ok s2 => simpa using ih s2

/-- C9: whenever a prefix of a run leaves the barrier counter with no
outstanding Add balance (counter at most zero) and the next event is a
Done, the run panics with the negative counter message of the underlying
sync.WaitGroup, whatever comes after; the counter is never clamped. -/
theorem waitGroup_negative_counter_panics (pre post : List WGEvent)
    (e : Option GoErr) (s : WGState)
    (h1 : wgRun pre = .ok s) (h2 : s.counter ≤ 0) :
    wgRun (pre ++ WGEvent.done e :: post) = .error "sync: negative WaitGroup counter" := by
  rw [wgRun] at h1 ⊢
  rw [wgStep_foldlM_append, h1]
  show (WGEvent.done e :: post).foldlM wgStep s = _
  rw [List.foldlM_cons]
  cases e with
  | none =>
    rw [wgStep]
    rw [if_pos (by omega)]
    rfl
  | some x =>
    rw [wgStep]
    rw [if_pos (by omega)]
    rfl

/-- Witness for C9: Add(1) followed by two Done(nil) calls panics at the
second Done with the negative counter message. -/
theorem waitGroup_negative_counter_panics_witness :
    wgRun [WGEvent.add 1, WGEvent.done none, WGEvent.done none] =
      .error "sync: negative WaitGroup counter" := by
  have h := waitGroup_negative_counter_panics [WGEvent.add 1, WGEvent.done none] []
    none ⟨0, []⟩ (by rfl) (by norm_num)
  simpa using h

/-- C10: IsNilField is true of every field of the Reflect kind with nil
payload, in particular of the caller-constructed Reflect(k, nil) and
Any(k, nil) (which is exactly the nilField sentinel); and since the
not-found results of GetField and FindFieldInChain are that same sentinel,
an explicitly attached reflected field with nil payload cannot be told
apart from an absent key through IsNilField. -/
theorem nilField_indistinguishable_spec (f : Field) (k : String) (err : GoErr) :
    (f.Typ = FieldType.Reflect → f.Interface = GoValue.nilv → IsNilField f = true) ∧
    (IsNilField (Reflect k GoValue.nilv) = true) ∧
    (Any k GoValue.nilv = nilField k) ∧
    (IsNilField (Any k GoValue.nilv) = true) ∧
    (Reflect k GoValue.nilv = nilField k) ∧
    ((∀ fl ∈ errFields (getError err), fl.Key ≠ k) → GetField err k = nilField k) ∧
    (findFieldInChain 1 k (.ctx "m" [] none) = some (nilField k)) := by
  refine ⟨?_, rfl, rfl, rfl, rfl, ?_, ?_⟩
  · intro h1 h2
    rw [IsNilField, h1, h2]
    rfl
  · intro h
    rw [GetField]
    rw [List.find?_eq_none.mpr (by intro a ha; simpa using h a ha)]
  · rw [findFieldInChain, getError]
    rfl

/-- Witness for C10: at a reflected field with nil payload the predicate
holds, and on a foreign leaf error with an absent key GetField returns the
sentinel. -/
theorem nilField_indistinguishable_spec_witness :
    (IsNilField (Reflect "a" GoValue.nilv) = true) ∧
    (GetField (GoErr.std 0 "m") "a" = nilField "a") :=
  ⟨(nilField_indistinguishable_spec (Reflect "a" GoValue.nilv) "a" (GoErr.std 0 "m")).1
      rfl rfl,
   (nilField_indistinguishable_spec (Reflect "a" GoValue.nilv) "a" (GoErr.std 0 "m")).2.2.2.2.2.1
      (by rw [getError]; intro fl hfl; simp [errFields] at hfl)⟩

end GoErrors
